import Mathlib

/-! # Ownership gate of the NFT download API (`src/index.js`)

Shallow embedding of the three request-processing functions of `src/index.js`:

* the HTTPS-upgrade middleware (lines 66-72);
* the `GET /download-nft/:tokenId/:signature` handler (lines 76-102);
* the error-handling middleware (lines 108-112).

The collaborators that the source calls but does not define
(`ethers.utils.verifyMessage`, `ReadingContract.ownerOf`, `process.cwd()`,
`process.env.*`) are parameters of the embedding.  Every call made to a
collaborator and every method invoked on the response object is recorded, in
program order, in a list of `Event`s, so that claims about *what the handler
does* (and in which order) are claims about that list.
-/

namespace Api

/-! ## Collaborators and observable events -/

/-- External collaborators of the handler.  A call either returns a value
(`Except.ok`) or throws / rejects with an error message (`Except.error`). -/
structure Env where
  /-- Models `ethers.utils.verifyMessage(digest, signature)`. -/
  verifyMessage : String → String → Except String String
  /-- Models `await ReadingContract.ownerOf(tokenId)`. -/
  ownerOf : String → Except String String
  /-- Models `process.cwd()`. -/
  cwd : String

/-- Observable actions of the request-processing code, in program order. -/
inductive Event where
  | verifyMessage (digest signature : String)
  | ownerOf (tokenId : String)
  | status (code : Nat)
  | send (body : String)
  | download (file : String)
  | redirect (url : String)
  | next
  deriving DecidableEq

/-! ## The download handler (lines 76-102) -/

/-- Line 79: the template literal that builds the challenge. -/
def digest (tokenId : String) : String :=
  "Download high resolution file of #" ++ tokenId

/-- Lines 87 and 95: the body sent together with status 403. -/
def notOwner (tokenId : String) : String :=
  "Not owner of NFT #" ++ tokenId

/-- Line 99: the path handed to `res.download`. -/
def file (env : Env) (tokenId : String) : String :=
  env.cwd ++ "/metadata/" ++ tokenId ++ ".jpg"

/-- The async function registered for `/download-nft/:tokenId/:signature`.
The first component is the list of events it performs; the second component
is `Except.ok ()` when the function returns and `Except.error msg` when its
promise rejects (an exception escapes the body). -/
def downloadNft (env : Env) (tokenId signature : String) :
    List Event × Except String Unit :=
  match env.verifyMessage (digest tokenId) signature with
  | .error _ =>
      ([.verifyMessage (digest tokenId) signature,
        .status 403, .send (notOwner tokenId)], .ok ())
  | .ok address =>
      match env.ownerOf tokenId with
      | .error e =>
          ([.verifyMessage (digest tokenId) signature, .ownerOf tokenId], .error e)
      | .ok owner =>
          if address ≠ owner then
            ([.verifyMessage (digest tokenId) signature, .ownerOf tokenId,
              .status 403, .send (notOwner tokenId)], .ok ())
          else
            ([.verifyMessage (digest tokenId) signature, .ownerOf tokenId,
              .download (file env tokenId)], .ok ())

/-- Lines 110-112: the error-handling middleware, `res.send(error.message)`. -/
def errorMiddleware (message : String) : List Event :=
  [.send message]

/-- The route as the framework runs it.  Express is not part of the
repository; `forwards` says whether the framework passes a rejected promise
of the route function to the error-handling middleware (`true`) or leaves the
rejection unhandled (`false`, the behaviour of a plain `app.get`
registration in Express 4). -/
def serve (forwards : Bool) (env : Env) (tokenId signature : String) : List Event :=
  match downloadNft env tokenId signature with
  | (trace, .ok ()) => trace
  | (trace, .error message) =>
      if forwards then trace ++ errorMiddleware message else trace

/-! ## Responses -/

/-- What a response carries. -/
inductive Payload where
  | text (body : String)
  | file (path : String)
  | location (url : String)
  deriving DecidableEq

/-- A response as the client observes it. -/
structure Response where
  statusCode : Nat
  payload : Payload
  deriving DecidableEq

/-- The response produced by a list of events, starting from status code
`statusCode`: `res.status` sets the code, and the first of `res.send`,
`res.download`, `res.redirect` ends the response (`res.redirect` uses 302). -/
def respond (statusCode : Nat) : List Event → Option Response
  | [] => none
  | .status code :: rest => respond code rest
  | .send body :: _ => some ⟨statusCode, .text body⟩
  | .download path :: _ => some ⟨statusCode, .file path⟩
  | .redirect url :: _ => some ⟨302, .location url⟩
  | .verifyMessage _ _ :: rest => respond statusCode rest
  | .ownerOf _ :: rest => respond statusCode rest
  | .next :: rest => respond statusCode rest

/-- The response of a request; a fresh response object has status code 200. -/
def response (trace : List Event) : Option Response :=
  respond 200 trace

/-- Number of ledger reads in a list of events. -/
def ledgerReads (trace : List Event) : Nat :=
  (trace.filter fun e => match e with
    | .ownerOf _ => true
    | _ => false).length

/-! ## The HTTPS-upgrade middleware (lines 66-72) -/

/-- First position at which `pattern` occurs in the text (the `StringIndexOf`
operation of ECMAScript, started at position 0). -/
def indexOf (pattern : List Char) : List Char → Option Nat
  | [] => if pattern.isPrefixOf [] then some 0 else none
  | c :: cs =>
      if pattern.isPrefixOf (c :: cs) then some 0
      else (indexOf pattern cs).map (· + 1)

/-- The `GetSubstitution` operation of ECMAScript for a string pattern (no
capture groups): in the replacement text `$$` stands for `$`, `$&` for the
matched text, `$` followed by a backquote for the text before the match and
`$` followed by a quote for the text after it; every other character,
including a `$` followed by anything else (and the character after it, which
is then not a `$`), is copied. -/
def getSubstitution (matched before after : List Char) : List Char → List Char
  | [] => []
  | c :: rest =>
      if c = '$' then
        match rest with
        | [] => ['$']
        | d :: rest2 =>
            if d = '$' then '$' :: getSubstitution matched before after rest2
            else if d = '&' then matched ++ getSubstitution matched before after rest2
            else if d = Char.ofNat 96 then before ++ getSubstitution matched before after rest2
            else if d = Char.ofNat 39 then after ++ getSubstitution matched before after rest2
            else '$' :: d :: getSubstitution matched before after rest2
      else c :: getSubstitution matched before after rest

/-- `String.prototype.replace(searchValue, replaceValue)` with both arguments
strings: only the first occurrence of `searchValue` is replaced, and a text
without an occurrence is returned unchanged. -/
def replace (text searchValue replaceValue : String) : String :=
  match indexOf searchValue.data text.data with
  | none => text
  | some position =>
      let before := text.data.take position
      let after := text.data.drop (position + searchValue.data.length)
      ⟨before ++ getSubstitution searchValue.data before after replaceValue.data ++ after⟩

/-- The parts of a request that the middleware reads: `request.secure`,
`request.headers.host` and `request.url`. -/
structure Request where
  secure : Bool
  host : String
  url : String

/-- The middleware of lines 66-72; `HTTP_PORT` and `HTTPS_PORT` are the values
of `process.env.HTTP_PORT` and `process.env.HTTPS_PORT`. -/
def httpsRedirect (HTTP_PORT HTTPS_PORT : String) (request : Request) : List Event :=
  if !request.secure then
    [.redirect ("https://" ++ replace request.host HTTP_PORT HTTPS_PORT ++ request.url)]
  else
    [.next]

/-! ## Notions used only to state the specification's wording -/

/-- The normalized form of an address string named by the specification: its
lower-cased form. -/
def normalize (address : String) : String :=
  ⟨address.data.map Char.toLower⟩

/-- A decimal unsigned integer, as the specification describes a valid token
id: a non-empty string of decimal digits. -/
def isDecimal (tokenId : String) : Bool :=
  !tokenId.data.isEmpty && tokenId.data.all Char.isDigit

/-! ## Concrete collaborators used to exercise the theorems -/

/-- A small ledger and recovery function: signature `0xsigA` recovers to
`0xA0`, `0xsigB` to `0xB0`, `0xsigC` to `0xC0`, any other signature makes
recovery throw; token 7 is owned by `0xC0`, token 42 by `0xB0`, and the
ledger call fails for every other token id. -/
def envDemo : Env :=
  { verifyMessage := fun _ signature =>
      if signature = "0xsigA" then .ok "0xA0"
      else if signature = "0xsigB" then .ok "0xB0"
      else if signature = "0xsigC" then .ok "0xC0"
      else .error "invalid signature string"
    ownerOf := fun tokenId =>
      if tokenId = "7" then .ok "0xC0"
      else if tokenId = "42" then .ok "0xB0"
      else .error "call revert exception"
    cwd := "/srv/api" }

/-- A stand-in for the checksum form, used to exercise the theorems: it keeps
the `0x` prefix and writes the hexadecimal letters in upper case, so the
addresses of `envDemo` are in this form. -/
def demoGetAddress (address : String) : Option String :=
  some ("0x" ++ ⟨((normalize address).data.drop 2).map Char.toUpper⟩)

/-! ## Theorems -/

/-- A replacement text without `$` is substituted unchanged. -/
theorem getSubstitution_of_plain (matched before after : List Char) :
    ∀ replacement : List Char, '$' ∉ replacement →
      getSubstitution matched before after replacement = replacement
  | [], _ => rfl
  | c :: rest, h => by
      have hc : c ≠ '$' := fun hc => h (hc ▸ List.mem_cons_self _ _)
      have hrest : '$' ∉ rest := fun hr => h (List.mem_cons_of_mem _ hr)
      rw [getSubstitution.eq_def]
      simp only [if_neg hc, getSubstitution_of_plain matched before after rest hrest]

/-- A plain-HTTP request is always redirected and never passed on. -/
theorem httpsRedirect_of_not_secure (HTTP_PORT HTTPS_PORT host url : String) :
    httpsRedirect HTTP_PORT HTTPS_PORT ⟨false, host, url⟩ =
      [.redirect ("https://" ++ replace host HTTP_PORT HTTPS_PORT ++ url)] := by
  simp [httpsRedirect]

/-- When the first occurrence of `HTTP_PORT` in the Host header is the port
itself and `HTTPS_PORT` contains no `$`, the redirect keeps the host name and
swaps only the port. -/
theorem httpsRedirect_swaps_port (HTTP_PORT HTTPS_PORT name url : String)
    (hfirst : indexOf HTTP_PORT.data (name ++ ":" ++ HTTP_PORT).data =
      some (name.data.length + 1))
    (hplain : '$' ∉ HTTPS_PORT.data) :
    httpsRedirect HTTP_PORT HTTPS_PORT ⟨false, name ++ ":" ++ HTTP_PORT, url⟩ =
      [.redirect ("https://" ++ name ++ ":" ++ HTTPS_PORT ++ url)] := by
  have htake : List.take (name.data.length + 1) (name.data ++ ':' :: HTTP_PORT.data) =
      name.data ++ [':'] := by
    have h : List.take (name.data.length + 1) ((name.data ++ [':']) ++ HTTP_PORT.data) =
        name.data ++ [':'] := List.take_left' (by simp)
    simpa using h
  have hdrop : List.drop (name.data.length + 1 + HTTP_PORT.data.length)
      (name.data ++ ':' :: HTTP_PORT.data) = [] := by
    apply List.drop_eq_nil_of_le
    simp only [List.length_append, List.length_cons]
    omega
  have happ : (name ++ ":" ++ HTTP_PORT).data = name.data ++ ':' :: HTTP_PORT.data := by
    simp [String.data_append]
  rw [httpsRedirect_of_not_secure]
  unfold replace
  rw [hfirst]
  simp only [happ, htake, hdrop, getSubstitution_of_plain _ _ _ _ hplain]
  congr 2
  apply String.ext
  simp [String.data_append]

/-- C1: if the handler reaches `res.download`, then signature recovery over
the challenge succeeded, the ledger returned an owner, and the recovered
address equals that owner. -/
theorem download_only_on_proven_ownership (env : Env) (tokenId signature path : String)
    (h : Event.download path ∈ (downloadNft env tokenId signature).1) :
    ∃ address owner, env.verifyMessage (digest tokenId) signature = .ok address ∧
      env.ownerOf tokenId = .ok owner ∧ address = owner := by
  unfold downloadNft at h
  cases hv : env.verifyMessage (digest tokenId) signature with
  | error e => simp [hv] at h
  | ok address =>
    cases ho : env.ownerOf tokenId with
    | error e => simp [hv, ho] at h
    | ok owner =>
      by_cases hne : address = owner
      · exact ⟨address, owner, rfl, rfl, hne⟩
      · simp [hv, ho, hne] at h

theorem download_only_on_proven_ownership_witness :
    Event.download "/srv/api/metadata/7.jpg" ∈ (downloadNft envDemo "7" "0xsigC").1 ∧
    ∃ address owner, envDemo.verifyMessage (digest "7") "0xsigC" = .ok address ∧
      envDemo.ownerOf "7" = .ok owner ∧ address = owner :=
  ⟨by decide, download_only_on_proven_ownership envDemo "7" "0xsigC"
    "/srv/api/metadata/7.jpg" (by decide)⟩

/-- C2: when recovery over the challenge succeeds with an address and the
ledger reports that same address as owner, the handler sets no 403 and hands
off the download of exactly `<cwd>/metadata/<tokenId>.jpg`. -/
theorem owner_is_authorized (forwards : Bool) (env : Env)
    (tokenId signature address : String)
    (hv : env.verifyMessage (digest tokenId) signature = .ok address)
    (ho : env.ownerOf tokenId = .ok address) :
    downloadNft env tokenId signature =
        ([.verifyMessage (digest tokenId) signature, .ownerOf tokenId,
          .download (env.cwd ++ "/metadata/" ++ tokenId ++ ".jpg")], .ok ()) ∧
      Event.status 403 ∉ serve forwards env tokenId signature ∧
      response (serve forwards env tokenId signature) =
        some ⟨200, .file (env.cwd ++ "/metadata/" ++ tokenId ++ ".jpg")⟩ := by
  simp [downloadNft, serve, response, respond, file, hv, ho]

theorem owner_is_authorized_witness :
    downloadNft envDemo "7" "0xsigC" =
        ([.verifyMessage (digest "7") "0xsigC", .ownerOf "7",
          .download (envDemo.cwd ++ "/metadata/" ++ "7" ++ ".jpg")], .ok ()) ∧
      Event.status 403 ∉ serve false envDemo "7" "0xsigC" ∧
      response (serve false envDemo "7" "0xsigC") =
        some ⟨200, .file (envDemo.cwd ++ "/metadata/" ++ "7" ++ ".jpg")⟩ :=
  owner_is_authorized false envDemo "7" "0xsigC" "0xC0" rfl rfl

/-- C3: when recovery succeeds with an address and the ledger reports a
different owner, the handler answers with status 403 and the body
`Not owner of NFT #` followed by the token id, and never starts a download. -/
theorem other_signer_is_forbidden (forwards : Bool) (env : Env)
    (tokenId signature address owner : String)
    (hv : env.verifyMessage (digest tokenId) signature = .ok address)
    (ho : env.ownerOf tokenId = .ok owner)
    (hne : address ≠ owner) :
    response (serve forwards env tokenId signature) =
        some ⟨403, .text ("Not owner of NFT #" ++ tokenId)⟩ ∧
      ∀ path, Event.download path ∉ serve forwards env tokenId signature := by
  simp [downloadNft, serve, response, respond, notOwner, hv, ho, hne]

theorem other_signer_is_forbidden_witness :
    response (serve false envDemo "42" "0xsigA") =
        some ⟨403, .text ("Not owner of NFT #" ++ "42")⟩ ∧
      ∀ path, Event.download path ∉ serve false envDemo "42" "0xsigA" :=
  other_signer_is_forbidden false envDemo "42" "0xsigA" "0xA0" "0xB0"
    rfl rfl (by decide)

/-- C4: for one token id, the response to a signature whose recovery throws
is identical to the response to a signature that recovers to an address
other than the owner, namely status 403 with body `Not owner of NFT #` and
the token id; and two signatures with the same recovery outcome get the same
response. -/
theorem no_signature_oracle (forwards : Bool) (env : Env)
    (tokenId malformed wrongSigner error address owner : String)
    (hbad : env.verifyMessage (digest tokenId) malformed = .error error)
    (hv : env.verifyMessage (digest tokenId) wrongSigner = .ok address)
    (ho : env.ownerOf tokenId = .ok owner)
    (hne : address ≠ owner) :
    response (serve forwards env tokenId malformed) =
        response (serve forwards env tokenId wrongSigner) ∧
      response (serve forwards env tokenId malformed) =
        some ⟨403, .text ("Not owner of NFT #" ++ tokenId)⟩ ∧
      ∀ s₁ s₂, env.verifyMessage (digest tokenId) s₁ =
          env.verifyMessage (digest tokenId) s₂ →
        response (serve forwards env tokenId s₁) =
          response (serve forwards env tokenId s₂) := by
  refine ⟨?_, ?_, ?_⟩
  · simp [downloadNft, serve, response, respond, hbad, hv, ho, hne]
  · simp [downloadNft, serve, response, respond, notOwner, hbad]
  · intro s₁ s₂ h
    unfold serve downloadNft
    rw [h]
    cases env.verifyMessage (digest tokenId) s₂ with
    | error e => simp [response, respond]
    | ok a =>
      cases env.ownerOf tokenId with
      | error e => cases forwards <;> simp [response, respond, errorMiddleware]
      | ok o => by_cases hao : a = o <;> simp [response, respond, hao]

theorem no_signature_oracle_witness :
    response (serve false envDemo "42" "zz") =
        response (serve false envDemo "42" "0xsigA") ∧
      response (serve false envDemo "42" "zz") =
        some ⟨403, .text ("Not owner of NFT #" ++ "42")⟩ ∧
      ∀ s₁ s₂, envDemo.verifyMessage (digest "42") s₁ =
          envDemo.verifyMessage (digest "42") s₂ →
        response (serve false envDemo "42" s₁) =
          response (serve false envDemo "42" s₂) :=
  no_signature_oracle false envDemo "42" "zz" "0xsigA" "invalid signature string"
    "0xA0" "0xB0" rfl rfl rfl (by decide)

/-- C5 (behaviour of the code): when recovery succeeds and the ledger call
rejects, the handler performs the two calls and rejects without touching the
response; if the rejection is left unhandled no response is produced at all,
and if it reaches the error-handling middleware the response has status 200
with the error message as body.  In neither case is an error status set. -/
theorem ledger_failure_sets_no_error_status (env : Env)
    (tokenId signature address error : String)
    (hv : env.verifyMessage (digest tokenId) signature = .ok address)
    (ho : env.ownerOf tokenId = .error error) :
    downloadNft env tokenId signature =
        ([.verifyMessage (digest tokenId) signature, .ownerOf tokenId], .error error) ∧
      response (serve false env tokenId signature) = none ∧
      response (serve true env tokenId signature) = some ⟨200, .text error⟩ ∧
      ∀ forwards code, Event.status code ∉ serve forwards env tokenId signature := by
  refine ⟨?_, ?_, ?_, ?_⟩
  · simp [downloadNft, hv, ho]
  · simp [downloadNft, serve, response, respond, hv, ho]
  · simp [downloadNft, serve, response, respond, errorMiddleware, hv, ho]
  · intro forwards code
    cases forwards <;> simp [downloadNft, serve, errorMiddleware, hv, ho]

theorem ledger_failure_sets_no_error_status_witness :
    downloadNft envDemo "1000" "0xsigA" =
        ([.verifyMessage (digest "1000") "0xsigA", .ownerOf "1000"],
          .error "call revert exception") ∧
      response (serve false envDemo "1000" "0xsigA") = none ∧
      response (serve true envDemo "1000" "0xsigA") =
        some ⟨200, .text "call revert exception"⟩ ∧
      ∀ forwards code, Event.status code ∉ serve forwards envDemo "1000" "0xsigA" :=
  ledger_failure_sets_no_error_status envDemo "1000" "0xsigA" "0xA0"
    "call revert exception" rfl rfl

/-- The letter case chosen by `demoGetAddress` depends only on the lower-cased
form of its argument. -/
theorem demoGetAddress_caseBlind (x y cx cy : String)
    (h : normalize x = normalize y)
    (hx : demoGetAddress x = some cx) (hy : demoGetAddress y = some cy) : cx = cy := by
  unfold demoGetAddress at hx hy
  rw [h] at hx
  exact Option.some.inj (hx.symm.trans hy)

/-- C6: the comparison is made on addresses in normalized form.  Both
collaborators return their address in the checksum form of the library
(`getAddress`, not part of the repository and taken as a parameter), whose
letter case is determined by the lower-cased hexadecimal form.  For a
recovered address and a ledger owner in that form, the handler hands off the
download when their lower-cased forms are equal and answers 403 exactly when
the lower-cased forms differ. -/
theorem ownership_compared_on_normalized_addresses (forwards : Bool) (env : Env)
    (getAddress : String → Option String)
    (tokenId signature address owner : String)
    (hblind : ∀ x y cx cy, normalize x = normalize y →
      getAddress x = some cx → getAddress y = some cy → cx = cy)
    (haddress : getAddress address = some address)
    (howner : getAddress owner = some owner)
    (hv : env.verifyMessage (digest tokenId) signature = .ok address)
    (ho : env.ownerOf tokenId = .ok owner) :
    (normalize address = normalize owner →
        response (serve forwards env tokenId signature) =
          some ⟨200, .file (env.cwd ++ "/metadata/" ++ tokenId ++ ".jpg")⟩) ∧
      (response (serve forwards env tokenId signature) =
          some ⟨200, .file (env.cwd ++ "/metadata/" ++ tokenId ++ ".jpg")⟩ ↔
        normalize address = normalize owner) ∧
      (response (serve forwards env tokenId signature) =
          some ⟨403, .text ("Not owner of NFT #" ++ tokenId)⟩ ↔
        normalize address ≠ normalize owner) := by
  have hiff : normalize address = normalize owner ↔ address = owner :=
    ⟨fun h => hblind address owner address owner h haddress howner,
      fun h => congrArg normalize h⟩
  simp only [ne_eq, hiff]
  by_cases h : address = owner
  · subst h
    simp [downloadNft, serve, response, respond, file, hv, ho]
  · simp [downloadNft, serve, response, respond, notOwner, hv, ho, h]

theorem ownership_compared_on_normalized_addresses_witness :
    (normalize "0xB0" = normalize "0xB0" →
        response (serve false envDemo "42" "0xsigB") =
          some ⟨200, .file (envDemo.cwd ++ "/metadata/" ++ "42" ++ ".jpg")⟩) ∧
      (response (serve false envDemo "42" "0xsigB") =
          some ⟨200, .file (envDemo.cwd ++ "/metadata/" ++ "42" ++ ".jpg")⟩ ↔
        normalize "0xB0" = normalize "0xB0") ∧
      (response (serve false envDemo "42" "0xsigB") =
          some ⟨403, .text ("Not owner of NFT #" ++ "42")⟩ ↔
        normalize "0xB0" ≠ normalize "0xB0") :=
  ownership_compared_on_normalized_addresses false envDemo demoGetAddress
    "42" "0xsigB" "0xB0" "0xB0" demoGetAddress_caseBlind
    (by decide) (by decide) rfl rfl

/-- C7 (counterexample): for the token id `abc`, which is not a decimal
unsigned integer, the handler invokes signature recovery and then the ledger
query. -/
theorem non_numeric_token_id_reaches_recovery_and_ledger :
    isDecimal "abc" = false ∧
      downloadNft envDemo "abc" "0xsigA" =
        ([.verifyMessage "Download high resolution file of #abc" "0xsigA",
          .ownerOf "abc"], .error "call revert exception") :=
  ⟨by decide, rfl⟩

/-- C7 (amended): the handler does not validate the token id: for every
token id, decimal or not, its first action is signature recovery over the
challenge for that id, and it issues the ledger query for that id exactly
when recovery succeeds. -/
theorem token_id_is_not_validated (env : Env) (tokenId signature : String) :
    (downloadNft env tokenId signature).1.head? =
        some (.verifyMessage (digest tokenId) signature) ∧
      (Event.ownerOf tokenId ∈ (downloadNft env tokenId signature).1 ↔
        ∃ address, env.verifyMessage (digest tokenId) signature = .ok address) := by
  unfold downloadNft
  cases hv : env.verifyMessage (digest tokenId) signature with
  | error e => simp
  | ok a =>
    cases ho : env.ownerOf tokenId with
    | error e => simp
    | ok o => by_cases hao : a = o <;> simp [hao]

/-- C8: the challenge is exactly `Download high resolution file of #`
followed by the token id, that string is what the handler passes to signature
recovery, and different token ids give different challenges. -/
theorem challenge_is_exact_and_injective :
    (∀ tokenId, digest tokenId = "Download high resolution file of #" ++ tokenId) ∧
      (∀ env tokenId signature,
        (downloadNft env tokenId signature).1.head? =
          some (.verifyMessage ("Download high resolution file of #" ++ tokenId)
            signature)) ∧
      (∀ env tokenId signature d s,
        Event.verifyMessage d s ∈ (downloadNft env tokenId signature).1 →
          d = "Download high resolution file of #" ++ tokenId ∧ s = signature) ∧
      ∀ t₁ t₂ : String, t₁ ≠ t₂ → digest t₁ ≠ digest t₂ := by
  refine ⟨fun _ => rfl, ?_, ?_, ?_⟩
  · intro env tokenId signature
    unfold downloadNft
    cases env.verifyMessage (digest tokenId) signature with
    | error e => simp [digest]
    | ok a =>
      cases env.ownerOf tokenId with
      | error e => simp [digest]
      | ok o => by_cases hao : a = o <;> simp [hao, digest]
  · intro env tokenId signature d s
    unfold downloadNft
    cases env.verifyMessage (digest tokenId) signature with
    | error e => simp [digest]
    | ok a =>
      cases env.ownerOf tokenId with
      | error e => simp [digest]
      | ok o => by_cases hao : a = o <;> simp [hao, digest]
  · intro t₁ t₂ hne h
    apply hne
    have hd := congrArg String.data h
    simp only [digest, String.data_append] at hd
    exact String.ext (List.append_cancel_left hd)

/-- C9: the ledger is read at most once per request, always with the
request's token id; it is not read at all when signature recovery throws, and
it is read exactly once, after recovery, when recovery succeeds. -/
theorem single_ledger_read (forwards : Bool) (env : Env) (tokenId signature : String) :
    ledgerReads (serve forwards env tokenId signature) ≤ 1 ∧
      (∀ t, Event.ownerOf t ∈ serve forwards env tokenId signature → t = tokenId) ∧
      ((∃ e, env.verifyMessage (digest tokenId) signature = .error e) →
        ledgerReads (serve forwards env tokenId signature) = 0) ∧
      ((∃ a, env.verifyMessage (digest tokenId) signature = .ok a) →
        ledgerReads (serve forwards env tokenId signature) = 1 ∧
        (serve forwards env tokenId signature).take 2 =
          [.verifyMessage (digest tokenId) signature, .ownerOf tokenId]) := by
  unfold serve downloadNft
  cases hv : env.verifyMessage (digest tokenId) signature with
  | error e => simp [ledgerReads]
  | ok a =>
    cases ho : env.ownerOf tokenId with
    | error e => cases forwards <;> simp [ledgerReads, errorMiddleware]
    | ok o => by_cases hao : a = o <;> simp [hao, ledgerReads]

/-- C10 (behaviour of the code): with HTTP port `8080` and HTTPS port `8443`,
a plain-HTTP request for host `node8080.example.com:8080` is redirected to
host `node8443.example.com:8080`: the first occurrence of the port digits,
inside the host name, is rewritten and the port itself is kept, so the
location differs from `https://node8080.example.com:8443/`. -/
theorem https_redirect_rewrites_host_name :
    httpsRedirect "8080" "8443"
        ⟨false, "node8080.example.com" ++ ":" ++ "8080", "/"⟩ =
      [.redirect "https://node8443.example.com:8080/"] ∧
    httpsRedirect "8080" "8443"
        ⟨false, "node8080.example.com" ++ ":" ++ "8080", "/"⟩ ≠
      [.redirect ("https://" ++ "node8080.example.com" ++ ":" ++ "8443" ++ "/")] := by
  decide

end Api
